import Mathlib

/-!
Shallow embedding of the two build-time enrichment passes of this repository:

* `build/inject-previous-next.ts`: guide-sequence construction from a directory
  of sibling pages (`makeSequence`), previous/next resolution
  (`getPreviousNextEntries`), the module-level sequence cache
  (`injectPreviousNext`, modelled by `lookupSequence`), and the navigation
  markup (`renderButton`, `renderButtons`).
* the banner-injection module (`getL10nString`, `injectBanner`,
  `injectBanners`).

File reads and front-matter parsing are modelled by their outcomes: a child
directory's read-and-parse result is an `Option DocAttributes` (`none` = the
read or parse threw, caught and ignored).  JavaScript `undefined` for an
optional front-matter field is `Option.none`.  A thrown, uncaught exception is
`Except.error ()`.
-/

/-- The front-matter fields of a child page document that `makeSequence`
reads: `page-type`, `weight` and `slug`, each possibly absent
(JS `undefined`). -/
structure DocAttributes where
  pageType : Option String
  weight : Option Int
  slug : Option String
  deriving DecidableEq

/-- An entry of a page sequence: `{ slug: matter.slug, weight: matter.weight }`.
The slug is copied from the front matter unchecked, so it can be absent. -/
structure SequenceEntry where
  slug : Option String
  weight : Int
  deriving DecidableEq

/-- The loop body of `makeSequence` for one child directory: `none` when the
read/parse threw, or when the front matter is not `page-type: "guide"` with a
defined `weight`; otherwise the entry pushed onto the sequence. -/
def childEntry : Option DocAttributes → Option SequenceEntry
  | none => none
  | some matter =>
    if matter.pageType = some "guide" then
      match matter.weight with
      | some w => some ⟨matter.slug, w⟩
      | none => none
    else none

/-- The order realised by the comparator passed to `Array.prototype.sort`
(`1` if `a.weight > b.weight`, `-1` if `a.weight < b.weight`, else `0`):
non-strict ascending order on `weight`. -/
def weightLE (a b : SequenceEntry) : Prop := a.weight ≤ b.weight

instance : DecidableRel weightLE := fun a b =>
  inferInstanceAs (Decidable (a.weight ≤ b.weight))

instance : IsTotal SequenceEntry weightLE := ⟨fun a b => Int.le_total a.weight b.weight⟩

instance : IsTrans SequenceEntry weightLE := ⟨fun _ _ _ h h2 => le_trans h h2⟩

/-- `makeSequence`, over the read results of the immediate child directories of
the parent (in directory-scan order).  Collects an entry per valid child,
returns the empty list unless every child contributed, and otherwise sorts by
weight.  ECMAScript specifies `Array.prototype.sort` as a stable sort, and the
unique stable sort by the comparator's order is insertion sort by `weightLE`. -/
def makeSequence (children : List (Option DocAttributes)) : List SequenceEntry :=
  let sequence := children.filterMap childEntry
  if children.length = sequence.length then
    List.insertionSort weightLE sequence
  else []

/-- The `{ previous, next }` record returned by `getPreviousNextEntries`;
`none` models `null`. -/
structure PNEntries where
  previous : Option SequenceEntry
  next : Option SequenceEntry
  deriving DecidableEq

/-- The `pageIndex` of `getPreviousNextEntries`: `Array.prototype.findIndex`
returns `-1` when no entry's slug strict-equals `slug`, else the first
matching index. -/
def pageIndexOf (slug : String) (sequence : List SequenceEntry) : Int :=
  match sequence.findIdx? (fun page => page.slug == some slug) with
  | some i => (i : Int)
  | none => -1

/-- `getPreviousNextEntries`: the two index guards select the neighbouring
entries around `pageIndex`.  Indices are JS numbers, modelled as `Int`, so
`pageIndex` can be `-1`. -/
def getPreviousNextEntries (slug : String) (sequence : List SequenceEntry) : PNEntries :=
  let pageIndex : Int := pageIndexOf slug sequence
  ⟨(if 0 < pageIndex then sequence.get? (pageIndex - 1).toNat else none : Option SequenceEntry),
   (if pageIndex < (sequence.length : Int) - 1 then sequence.get? (pageIndex + 1).toNat
    else none : Option SequenceEntry)⟩

/-- One call of the cache logic of `injectPreviousNext`: the module-level
`pageSequences` object is an association list from parent path to sequence,
and `children` maps a parent path to the read results of its child directories
(the file tree is static during a build).  Returns the sequence used for the
page, the updated cache, and how many times `makeSequence` ran (0 or 1).
`if (!sequence)` recomputes only when the key is absent (`undefined` is falsy);
a stored array — the empty one included — is truthy and is returned as is. -/
def lookupSequence (children : String → List (Option DocAttributes))
    (cache : List (String × List SequenceEntry)) (parent : String) :
    List SequenceEntry × List (String × List SequenceEntry) × Nat :=
  match cache.lookup parent with
  | some s => (s, cache, 0)
  | none =>
    let s := makeSequence (children parent)
    (s, (parent, s) :: cache, 1)

/-- JS template-literal coercion of a possibly-`undefined` slug interpolated
into a string. -/
def jsString : Option String → String
  | some s => s
  | none => "undefined"

/-- `renderButton`: the HTML for one nav button. -/
def renderButton (locale slug label : String) : String :=
  "<li><a class=\"button secondary\"" ++ "href=\"/" ++ locale ++ "/docs/" ++ slug ++ "\">"
    ++ "<span class=\"button-wrap\"> " ++ label ++ " </span></a></li>"

/-- `renderButtons`: `none` models the early return that inserts nothing and
leaves the document unchanged; `some html` models prepending `html` to the
body.  `parentSlug` is `slug.split("/").slice(0, -1).join("/")`. -/
def renderButtons (locale slug : String) (pnEntries : PNEntries) : Option String :=
  if pnEntries.previous = none ∧ pnEntries.next = none then none
  else
    let prevPart :=
      match pnEntries.previous with
      | some p => renderButton locale (jsString p.slug) "Previous"
      | none => ""
    let parentSlug := String.intercalate "/" ((slug.splitOn "/").dropLast)
    let nextPart :=
      match pnEntries.next with
      | some n => renderButton locale (jsString n.slug) "Next"
      | none => ""
    some ("<ul class=\"prev-next\">" ++ prevPart
      ++ renderButton locale parentSlug "Overview" ++ nextPart ++ "</ul>")

/-- Modelled from the spec: `DEFAULT_LOCALE` is the fallback/default locale
constant imported from the external constants module (not part of these
sources); the spec calls it the locale used when no localized string exists
for the requested locale. -/
def DEFAULT_LOCALE : String := "en-US"

/-- `getL10nString`: the localization table maps message identifier to a block
mapping locale to string.  When `l10nStrings[id]` is `undefined`, the access
`block[locale]` throws a TypeError, modelled as `Except.error ()`; otherwise
the result is `block[locale] ?? block[DEFAULT_LOCALE] ?? null`. -/
def getL10nString (l10nStrings : List (String × List (String × String)))
    (id locale : String) : Except Unit (Option String) :=
  match l10nStrings.lookup id with
  | none => Except.error ()
  | some block =>
    Except.ok ((block.lookup locale).orElse (fun _ => block.lookup DEFAULT_LOCALE))

/-- JS truthiness of the looked-up message: non-null and not the empty
string. -/
def truthyString : Option String → Bool
  | some s => s != ""
  | none => false

/-- `injectBanner`: resolves the message and, when it is truthy, emits the
banner `<div>`; a thrown lookup error propagates.  `Except.ok none` = no
banner emitted, `Except.ok (some html)` = `html` prepended to `div#_body`. -/
def injectBanner (l10nStrings : List (String × List (String × String)))
    (locale messageId bannerClass : String) : Except Unit (Option String) :=
  match getL10nString l10nStrings messageId locale with
  | Except.error e => Except.error e
  | Except.ok message =>
    if truthyString message then
      Except.ok (some ("<div class=\"notecard " ++ bannerClass ++ "\">"
        ++ message.getD "" ++ "</div>"))
    else Except.ok none

/-- The metadata fields read by `injectBanners`: `security-requirements` is an
optional list of tags; `browser-compat` is absent, a string query, or an array
of queries. -/
structure PageMetadata where
  securityRequirements : Option (List String)
  browserCompat : Option (String ⊕ List String)
  deriving DecidableEq

/-- The status flags reached through `bcd?.data?.__compat?.status`; `none`
from the resolver models any break in that optional chain. -/
structure BCDStatus where
  experimental : Bool
  deprecated : Bool
  deriving DecidableEq

/-- `security && security.includes("secure-context")`: `undefined` is falsy,
any array is truthy. -/
def hasSecureContext (metadata : PageMetadata) : Bool :=
  match metadata.securityRequirements with
  | some security => security.contains "secure-context"
  | none => false

/-- `injectBanners`: the secure-context banner, then — when `browser-compat`
is truthy (present, and not the empty string) and not an array — the
experimental and deprecated banners driven by the resolved status.
`packageBCD` is the external Compatibility Resolver (its module is not part of
these sources), passed as a parameter.  The result lists the emitted banners
in emission order; a thrown error aborts the call. -/
def injectBanners (l10nStrings : List (String × List (String × String)))
    (packageBCD : String → Option BCDStatus) (locale : String)
    (metadata : PageMetadata) : Except Unit (List String) :=
  Except.bind
    (if hasSecureContext metadata then
      injectBanner l10nStrings locale "SecureContextBanner" "secure"
    else Except.ok none)
    (fun secure =>
      match metadata.browserCompat with
      | some (Sum.inl bcdQuery) =>
        if bcdQuery ≠ "" then
          let status := packageBCD bcdQuery
          Except.bind
            (if (status.map (fun s => s.experimental)).getD false then
              injectBanner l10nStrings locale "ExperimentalBanner" "experimental"
            else Except.ok none)
            (fun exper =>
              Except.bind
                (if (status.map (fun s => s.deprecated)).getD false then
                  injectBanner l10nStrings locale "DeprecatedBanner" "deprecated"
                else Except.ok none)
                (fun depre =>
                  Except.ok (secure.toList ++ exper.toList ++ depre.toList)))
        else Except.ok secure.toList
      | _ => Except.ok secure.toList)


/-! ## Helper lemmas -/

/-- When every child contributes an entry, `makeSequence` is the stable sort of
the collected entries. -/
theorem makeSequence_eq_sort (children : List (Option DocAttributes))
    (hall : ∀ c ∈ children, (childEntry c).isSome) :
    makeSequence children = List.insertionSort weightLE (children.filterMap childEntry) := by
  unfold makeSequence
  rw [if_pos (List.filterMap_length_eq_length.mpr hall).symm]

/-! ## Claims -/

/-- C1, counterexample: for the non-empty sequence `[⟨some "a", 1⟩]` and the
absent slug `"z"`, `getPreviousNextEntries` returns `next = some ⟨some "a", 1⟩`
(the first entry), not `next = null`: `findIndex` returns `-1` and the guard
`-1 < length - 1` holds for any non-empty sequence, so `sequence[0]` is
selected. -/
theorem c1_counterexample :
    getPreviousNextEntries "z" [⟨some "a", 1⟩] ≠ ⟨none, none⟩ ∧
    getPreviousNextEntries "z" [⟨some "a", 1⟩] = ⟨none, some ⟨some "a", 1⟩⟩ := by
  exact ⟨by decide, by decide⟩

/-- C1, amended: for every sequence and every slug that equals no entry's slug,
`getPreviousNextEntries` returns `previous = null`, and `next` is `null` when
the sequence is empty but is the sequence's first entry when it is
non-empty. -/
theorem c1_amended_absent_slug (slug : String) (sequence : List SequenceEntry)
    (habsent : ∀ page ∈ sequence, page.slug ≠ some slug) :
    (getPreviousNextEntries slug sequence).previous = none ∧
    (getPreviousNextEntries slug sequence).next = sequence.head? := by
  have hfind : sequence.findIdx? (fun page => page.slug == some slug) = none := by
    rw [List.findIdx?_eq_none_iff]
    intro x hx
    simpa using habsent x hx
  have hpi : pageIndexOf slug sequence = -1 := by
    unfold pageIndexOf
    rw [hfind]
  constructor
  · simp [getPreviousNextEntries, hpi]
  · cases sequence with
    | nil => simp [getPreviousNextEntries, hpi]
    | cons a l =>
      simp [getPreviousNextEntries, hpi]
      omega

/-- C1 witness for the amended claim, at the non-empty sequence of the
counterexample. -/
theorem c1_amended_witness :
    (getPreviousNextEntries "z" [⟨some "a", 1⟩]).previous = none ∧
    (getPreviousNextEntries "z" [⟨some "a", 1⟩]).next = some ⟨some "a", 1⟩ :=
  c1_amended_absent_slug "z" [⟨some "a", 1⟩] (by decide)

/-- C2: if at least one immediate subdirectory contributes no entry (its read
or parse threw, its page type is not "guide", or its weight is absent), then
`makeSequence` returns the empty list, never a partial sequence. -/
theorem c2_invalid_child_empty (children : List (Option DocAttributes))
    (h : ∃ c ∈ children, childEntry c = none) :
    makeSequence children = [] := by
  obtain ⟨c, hc, hnone⟩ := h
  have hne : (children.filterMap childEntry).length ≠ children.length := by
    intro heq
    have := List.filterMap_length_eq_length.mp heq c hc
    rw [hnone] at this
    simp at this
  unfold makeSequence
  rw [if_neg (fun heq => hne heq.symm)]

/-- C2 witness: one valid guide child and one unreadable child give the empty
sequence. -/
theorem c2_witness :
    makeSequence [some ⟨some "guide", some 1, some "a"⟩, none] = [] :=
  c2_invalid_child_empty [some ⟨some "guide", some 1, some "a"⟩, none]
    ⟨none, by simp, rfl⟩

/-- C3: the cache lookup of `injectPreviousNext` is idempotent.  After a first
call for a parent key, a second call for the same key returns the same
sequence and runs `makeSequence` zero times — also when the first call stored
the empty sequence, since a stored array is truthy; and a key already present
in the cache is answered as stored, with zero recomputation. -/
theorem c3_cache_idempotent (children : String → List (Option DocAttributes))
    (cache : List (String × List SequenceEntry)) (parent : String) :
    ((lookupSequence children (lookupSequence children cache parent).2.1 parent).1
      = (lookupSequence children cache parent).1) ∧
    ((lookupSequence children (lookupSequence children cache parent).2.1 parent).2.2 = 0) ∧
    (∀ s, cache.lookup parent = some s →
      lookupSequence children cache parent = (s, cache, 0)) := by
  unfold lookupSequence
  cases hl : cache.lookup parent with
  | some s => simp [hl]
  | none => simp [hl, List.lookup]

/-- C3 witness: a cache that already stores the empty sequence for the key is
answered as stored, with zero `makeSequence` runs. -/
theorem c3_witness :
    lookupSequence (fun _ => []) [("p", [])] "p" = ([], [("p", [])], 0) :=
  (c3_cache_idempotent (fun _ => []) [("p", [])] "p").2.2 [] rfl

/-- C5: when every immediate subdirectory holds a parsable guide document with
an explicit weight and the weights are pairwise distinct, `makeSequence`
contains an entry for every child and is sorted in strictly ascending order of
weight. -/
theorem c5_all_valid_sorted (children : List (Option DocAttributes))
    (hall : ∀ c ∈ children, (childEntry c).isSome)
    (hnd : ((children.filterMap childEntry).map SequenceEntry.weight).Nodup) :
    (∀ c ∈ children, ∀ e, childEntry c = some e → e ∈ makeSequence children) ∧
    (makeSequence children).Pairwise (fun a b => a.weight < b.weight) := by
  have hms := makeSequence_eq_sort children hall
  constructor
  · intro c hc e he
    rw [hms, List.mem_insertionSort]
    exact List.mem_filterMap.mpr ⟨c, hc, he⟩
  · rw [hms]
    have hsorted : (List.insertionSort weightLE (children.filterMap childEntry)).Pairwise weightLE :=
      List.sorted_insertionSort weightLE (children.filterMap childEntry)
    have hperm : List.Perm (List.insertionSort weightLE (children.filterMap childEntry))
        (children.filterMap childEntry) :=
      List.perm_insertionSort weightLE (children.filterMap childEntry)
    have hnd2 : ((List.insertionSort weightLE (children.filterMap childEntry)).map
        SequenceEntry.weight).Nodup :=
      ((hperm.map SequenceEntry.weight).nodup_iff).mpr hnd
    have hpne : (List.insertionSort weightLE (children.filterMap childEntry)).Pairwise
        (fun a b => a.weight ≠ b.weight) :=
      (List.pairwise_map).mp hnd2
    exact (hsorted.and hpne).imp (fun h => lt_of_le_of_ne h.1 h.2)

/-- C5 witness: two guide children with distinct weights, given in descending
scan order, all appear and come out strictly ascending. -/
theorem c5_witness :
    (∀ c ∈ [some (⟨some "guide", some 2, some "b"⟩ : DocAttributes),
            some ⟨some "guide", some 1, some "a"⟩], ∀ e, childEntry c = some e →
      e ∈ makeSequence [some ⟨some "guide", some 2, some "b"⟩,
            some ⟨some "guide", some 1, some "a"⟩]) ∧
    (makeSequence [some ⟨some "guide", some 2, some "b"⟩,
        some ⟨some "guide", some 1, some "a"⟩]).Pairwise
      (fun a b => a.weight < b.weight) :=
  c5_all_valid_sorted
    [some ⟨some "guide", some 2, some "b"⟩, some ⟨some "guide", some 1, some "a"⟩]
    (by decide) (by decide)

/-- C6: the sort is stable.  For a parent whose children all contribute (the
only case in which `makeSequence` sorts at all), any two entries of equal
weight that occur as the subsequence `[a, b]` of the scan-order entry list
still occur as the subsequence `[a, b]` of the returned sequence. -/
theorem c6_sort_stable (children : List (Option DocAttributes))
    (hall : ∀ c ∈ children, (childEntry c).isSome)
    (a b : SequenceEntry) (hw : a.weight = b.weight)
    (hsub : List.Sublist [a, b] (children.filterMap childEntry)) :
    List.Sublist [a, b] (makeSequence children) := by
  rw [makeSequence_eq_sort children hall]
  exact List.pair_sublist_insertionSort (le_of_eq hw) hsub

/-- C6 witness: two children of equal weight keep their scan order. -/
theorem c6_witness :
    List.Sublist [(⟨some "a", 1⟩ : SequenceEntry), ⟨some "b", 1⟩]
      (makeSequence [some ⟨some "guide", some 1, some "a"⟩,
            some ⟨some "guide", some 1, some "b"⟩]) :=
  c6_sort_stable
    [some ⟨some "guide", some 1, some "a"⟩, some ⟨some "guide", some 1, some "b"⟩]
    (by decide) ⟨some "a", 1⟩ ⟨some "b", 1⟩ rfl (List.Sublist.refl _)

/-- C9: a child whose front matter declares page type "guide" and a weight but
no slug still contributes: its entry carries `slug = none` (`matter.slug` is
copied unchecked), the child counts toward validity, and when the remaining
children are also valid the entry appears in the returned sequence. -/
theorem c9_missing_slug_entry (children : List (Option DocAttributes))
    (hall : ∀ c ∈ children, (childEntry c).isSome)
    (m : DocAttributes) (hm : some m ∈ children)
    (hguide : m.pageType = some "guide") (w : Int) (hw : m.weight = some w)
    (hslug : m.slug = none) :
    childEntry (some m) = some ⟨none, w⟩ ∧ (⟨none, w⟩ : SequenceEntry) ∈ makeSequence children := by
  have hce : childEntry (some m) = some ⟨none, w⟩ := by
    simp [childEntry, hguide, hw, hslug]
  refine ⟨hce, ?_⟩
  rw [makeSequence_eq_sort children hall, List.mem_insertionSort]
  exact List.mem_filterMap.mpr ⟨some m, hm, hce⟩

/-- C9 witness: a slug-less guide child next to an ordinary one; its
`slug = none` entry is in the returned sequence. -/
theorem c9_witness :
    childEntry (some ⟨some "guide", some 1, none⟩) = some ⟨none, 1⟩ ∧
    (⟨none, 1⟩ : SequenceEntry) ∈ makeSequence
      [some ⟨some "guide", some 1, none⟩, some ⟨some "guide", some 2, some "b"⟩] :=
  c9_missing_slug_entry
    [some ⟨some "guide", some 1, none⟩, some ⟨some "guide", some 2, some "b"⟩]
    (by decide) ⟨some "guide", some 1, none⟩ (by decide) rfl 1 rfl rfl

/-- C4, counterexample: for a banner whose message identifier has no entry in
the localization table at all, the banner is not silently skipped — the lookup
`block[locale]` on an `undefined` block throws a TypeError, which propagates
out of `injectBanner`. -/
theorem c4_counterexample :
    injectBanner [] "fr" "SecureContextBanner" "secure" = Except.error () ∧
    injectBanner [] "fr" "SecureContextBanner" "secure" ≠ Except.ok none := by
  refine ⟨rfl, ?_⟩
  intro h
  rw [show injectBanner [] "fr" "SecureContextBanner" "secure" = Except.error () from rfl] at h
  exact Except.noConfusion h

/-- C4, amended: when the message identifier has an entry in the table and the
lookup yields nothing for both the requested locale and the default fallback
locale, the banner is silently skipped: `injectBanner` returns `ok none` — no
banner, no error.  (When the identifier has no entry at all, a TypeError is
thrown instead.) -/
theorem c4_amended_missing_message (l10nStrings : List (String × List (String × String)))
    (locale messageId bannerClass : String) (block : List (String × String))
    (hid : l10nStrings.lookup messageId = some block)
    (hloc : block.lookup locale = none) (hdef : block.lookup DEFAULT_LOCALE = none) :
    injectBanner l10nStrings locale messageId bannerClass = Except.ok none := by
  simp [injectBanner, getL10nString, hid, hloc, hdef, Option.orElse, truthyString]

/-- C4 witness: an identifier present in the table with no string for the
requested locale nor for the default locale is skipped silently. -/
theorem c4_amended_witness :
    injectBanner [("SecureContextBanner", [("de", "Sicher")])] "fr"
      "SecureContextBanner" "secure" = Except.ok none :=
  c4_amended_missing_message [("SecureContextBanner", [("de", "Sicher")])] "fr"
    "SecureContextBanner" "secure" [("de", "Sicher")] rfl rfl rfl

/-- C10: when both `previous` and `next` are null, `renderButtons` inserts
nothing and the document is unchanged; when at least one is non-null, the
emitted prev-next list contains the Overview button, whose href targets the
parent slug — the page's slug with its last `/`-separated segment removed. -/
theorem c10_overview_button (locale slug : String) (pnEntries : PNEntries) :
    (pnEntries.previous = none ∧ pnEntries.next = none →
      renderButtons locale slug pnEntries = none) ∧
    (pnEntries.previous ≠ none ∨ pnEntries.next ≠ none →
      ∃ a b, renderButtons locale slug pnEntries
        = some (a ++ renderButton locale
            (String.intercalate "/" ((slug.splitOn "/").dropLast)) "Overview" ++ b)) := by
  constructor
  · intro h
    simp [renderButtons, h.1, h.2]
  · intro h
    have hne : ¬ (pnEntries.previous = none ∧ pnEntries.next = none) := by
      rcases h with h | h <;> exact fun hc => h (by simp [hc.1, hc.2])
    refine ⟨"<ul class=\"prev-next\">" ++
        (match pnEntries.previous with
          | some p => renderButton locale (jsString p.slug) "Previous"
          | none => ""),
      (match pnEntries.next with
        | some n => renderButton locale (jsString n.slug) "Next"
        | none => "") ++ "</ul>", ?_⟩
    simp only [renderButtons, if_neg hne]
    rw [String.append_assoc, String.append_assoc]

/-- C10 witness: with no neighbours nothing is inserted; with only a next
neighbour the list contains the Overview button for the parent slug. -/
theorem c10_witness :
    renderButtons "en-US" "a/b" ⟨none, none⟩ = none ∧
    (∃ a b, renderButtons "en-US" "a/b" ⟨none, some ⟨some "c", 1⟩⟩
      = some (a ++ renderButton "en-US"
          (String.intercalate "/" (("a/b".splitOn "/").dropLast)) "Overview" ++ b)) :=
  ⟨(c10_overview_button "en-US" "a/b" ⟨none, none⟩).1 ⟨rfl, rfl⟩,
   (c10_overview_button "en-US" "a/b" ⟨none, some ⟨some "c", 1⟩⟩).2 (Or.inr (by decide))⟩

/-- `Except.bind` on an `Except.ok` value runs the continuation. -/
theorem exceptBind_ok {ε α β : Type} (a : α) (f : α → Except ε β) :
    Except.bind (Except.ok a) f = f a := rfl

/-- When the message identifier is present, `injectBanner` returns `ok`: the
banner when the looked-up-or-fallback message is truthy, nothing otherwise. -/
theorem injectBanner_eq_of_lookup (l10nStrings : List (String × List (String × String)))
    (locale messageId bannerClass : String) (block : List (String × String))
    (hb : l10nStrings.lookup messageId = some block) :
    injectBanner l10nStrings locale messageId bannerClass
      = Except.ok
          (if truthyString ((block.lookup locale).orElse (fun _ => block.lookup DEFAULT_LOCALE))
            then some ("<div class=\"notecard " ++ bannerClass ++ "\">"
              ++ ((block.lookup locale).orElse
                    (fun _ => block.lookup DEFAULT_LOCALE)).getD "" ++ "</div>")
            else none) := by
  simp only [injectBanner, getL10nString, hb]
  split <;> rfl

/-- C7: when the metadata's browser-compat value is an array, `injectBanners`
behaves exactly as if there were no browser-compat value at all, for any pair
of compatibility resolvers: no experimental or deprecated banner can be
emitted, whatever status either resolver would report, and the secure-context
banner is unaffected. -/
theorem c7_array_bcd_skipped (l10nStrings : List (String × List (String × String)))
    (pb1 pb2 : String → Option BCDStatus) (locale : String)
    (metadata : PageMetadata) (queries : List String)
    (hbc : metadata.browserCompat = some (Sum.inr queries)) :
    injectBanners l10nStrings pb1 locale metadata
      = injectBanners l10nStrings pb2 locale ⟨metadata.securityRequirements, none⟩ := by
  simp [injectBanners, hbc, hasSecureContext]

/-- C7 witness: with an array browser-compat, a resolver reporting both flags
true, and messages available, only the secure-context banner is emitted. -/
theorem c7_witness :
    injectBanners
      [("SecureContextBanner", [("en-US", "S")]),
       ("ExperimentalBanner", [("en-US", "E")]), ("DeprecatedBanner", [("en-US", "D")])]
      (fun _ => some ⟨true, true⟩) "en-US"
      ⟨some ["secure-context"], some (Sum.inr ["api.X", "api.Y"])⟩
    = injectBanners
      [("SecureContextBanner", [("en-US", "S")]),
       ("ExperimentalBanner", [("en-US", "E")]), ("DeprecatedBanner", [("en-US", "D")])]
      (fun _ => none) "en-US" ⟨some ["secure-context"], none⟩ :=
  c7_array_bcd_skipped
    [("SecureContextBanner", [("en-US", "S")]),
     ("ExperimentalBanner", [("en-US", "E")]), ("DeprecatedBanner", [("en-US", "D")])]
    (fun _ => some ⟨true, true⟩) (fun _ => none) "en-US"
    ⟨some ["secure-context"], some (Sum.inr ["api.X", "api.Y"])⟩
    ["api.X", "api.Y"] rfl

/-- C8, counterexample: a metadata record satisfying every hypothesis of the
claim — non-array browser-compat, resolved status with both flags true, both
banner messages resolving — on which `injectBanners` emits nothing at all: its
security requirements name "secure-context" and the table has no
"SecureContextBanner" entry, so the secure-context lookup throws before the
compatibility banners are reached. -/
theorem c8_counterexample :
    ((⟨some ["secure-context"], some (Sum.inl "api.X")⟩ : PageMetadata).browserCompat
        = some (Sum.inl "api.X")) ∧
    (fun _ : String => some (⟨true, true⟩ : BCDStatus)) "api.X" = some ⟨true, true⟩ ∧
    getL10nString
      [("ExperimentalBanner", [("en-US", "E")]), ("DeprecatedBanner", [("en-US", "D")])]
      "ExperimentalBanner" "en-US" = Except.ok (some "E") ∧
    getL10nString
      [("ExperimentalBanner", [("en-US", "E")]), ("DeprecatedBanner", [("en-US", "D")])]
      "DeprecatedBanner" "en-US" = Except.ok (some "D") ∧
    injectBanners
      [("ExperimentalBanner", [("en-US", "E")]), ("DeprecatedBanner", [("en-US", "D")])]
      (fun _ => some ⟨true, true⟩) "en-US"
      ⟨some ["secure-context"], some (Sum.inl "api.X")⟩ = Except.error () := by
  exact ⟨rfl, rfl, rfl, rfl, rfl⟩

/-- C8, amended: under the claim's hypotheses — and provided additionally that
the secure-context step cannot throw (if the metadata requests a secure
context, the table has a "SecureContextBanner" entry) — `injectBanners` emits
both compatibility banners, the experimental banner immediately before the
deprecated banner, after whatever the secure-context step emitted. -/
theorem c8_amended_both_banners (l10nStrings : List (String × List (String × String)))
    (packageBCD : String → Option BCDStatus) (locale : String) (metadata : PageMetadata)
    (bcdQuery : String) (st : BCDStatus) (eMsg dMsg : String)
    (hq : metadata.browserCompat = some (Sum.inl bcdQuery)) (hq0 : bcdQuery ≠ "")
    (hst : packageBCD bcdQuery = some st)
    (hexp : st.experimental = true) (hdep : st.deprecated = true)
    (heL : getL10nString l10nStrings "ExperimentalBanner" locale = Except.ok (some eMsg))
    (he0 : eMsg ≠ "")
    (hdL : getL10nString l10nStrings "DeprecatedBanner" locale = Except.ok (some dMsg))
    (hd0 : dMsg ≠ "")
    (hsec : hasSecureContext metadata = true →
      (l10nStrings.lookup "SecureContextBanner").isSome = true) :
    ∃ securePart : List String,
      injectBanners l10nStrings packageBCD locale metadata
        = Except.ok (securePart ++
            ["<div class=\"notecard experimental\">" ++ eMsg ++ "</div>",
             "<div class=\"notecard deprecated\">" ++ dMsg ++ "</div>"]) := by
  have hsecure : ∃ secure : Option String,
      (if hasSecureContext metadata then
        injectBanner l10nStrings locale "SecureContextBanner" "secure"
      else Except.ok none) = Except.ok secure := by
    cases hsc : hasSecureContext metadata with
    | false => exact ⟨none, rfl⟩
    | true =>
      obtain ⟨block, hb⟩ := Option.isSome_iff_exists.mp (hsec hsc)
      refine ⟨if truthyString ((block.lookup locale).orElse
            (fun _ => block.lookup DEFAULT_LOCALE))
          then some ("<div class=\"notecard secure\">"
            ++ ((block.lookup locale).orElse
                  (fun _ => block.lookup DEFAULT_LOCALE)).getD "" ++ "</div>")
          else none, ?_⟩
      simp [injectBanner_eq_of_lookup l10nStrings locale
        "SecureContextBanner" "secure" block hb]
  obtain ⟨secure, hsecure⟩ := hsecure
  have hexpB : injectBanner l10nStrings locale "ExperimentalBanner" "experimental"
      = Except.ok (some ("<div class=\"notecard experimental\">" ++ eMsg ++ "</div>")) := by
    simp [injectBanner, heL, truthyString, he0]
  have hdepB : injectBanner l10nStrings locale "DeprecatedBanner" "deprecated"
      = Except.ok (some ("<div class=\"notecard deprecated\">" ++ dMsg ++ "</div>")) := by
    simp [injectBanner, hdL, truthyString, hd0]
  refine ⟨secure.toList, ?_⟩
  unfold injectBanners
  rw [hsecure, exceptBind_ok, hq]
  simp only [hst, Option.map_some', Option.getD_some, hexp, hdep, if_pos hq0, if_true]
  rw [hexpB, exceptBind_ok, hdepB, exceptBind_ok]
  simp

/-- C8 witness for the amended claim: no secure-context requirement, both
flags true, both messages present. -/
theorem c8_amended_witness :
    ∃ securePart : List String,
      injectBanners
        [("ExperimentalBanner", [("en-US", "E")]), ("DeprecatedBanner", [("en-US", "D")])]
        (fun _ => some ⟨true, true⟩) "en-US" ⟨none, some (Sum.inl "api.X")⟩
      = Except.ok (securePart ++
          ["<div class=\"notecard experimental\">" ++ "E" ++ "</div>",
           "<div class=\"notecard deprecated\">" ++ "D" ++ "</div>"]) :=
  c8_amended_both_banners
    [("ExperimentalBanner", [("en-US", "E")]), ("DeprecatedBanner", [("en-US", "D")])]
    (fun _ => some ⟨true, true⟩) "en-US" ⟨none, some (Sum.inl "api.X")⟩
    "api.X" ⟨true, true⟩ "E" "D" rfl (by decide) rfl rfl rfl rfl (by decide) rfl
    (by decide) (fun h => by simp [hasSecureContext] at h)
